import Mathlib

/-!
Verification of the BioASQ-to-SQuAD conversion tool
(src/biomedical_qa/tools/bioasq2squad.py).

Strings are embedded as lists of Unicode code points (List Nat); the
inputs exercised here are ASCII, for which the embedded character
classes match Python's regex classes.
-/

/-- A string, embedded as its list of code points. -/
abbrev Str := List Nat

/-- Code points of a Lean string literal. -/
def str (s : String) : Str := s.toList.map Char.toNat

/-- Python str.lower for one character (ASCII range, which covers every
input considered here). -/
def lowerChar (c : Nat) : Nat := if 65 ≤ c ∧ c ≤ 90 then c + 32 else c

/-- Python str.lower. -/
def lowerStr (s : Str) : Str := s.map lowerChar

/-- Python regex class \s (ASCII part): space, tab, newline, carriage
return, vertical tab, form feed. -/
def spaceChar (c : Nat) : Bool :=
  c == 32 || c == 9 || c == 10 || c == 13 || c == 11 || c == 12

/-- Python regex class \w (ASCII part): letters, digits, underscore. -/
def wordChar (c : Nat) : Bool :=
  (48 ≤ c && c ≤ 57) || (65 ≤ c && c ≤ 90) || (97 ≤ c && c ≤ 122) || c == 95

/-- Python str.strip: remove leading and trailing whitespace. -/
def trimStr (s : Str) : Str :=
  ((s.dropWhile spaceChar).reverse.dropWhile spaceChar).reverse

/-- Whether sub occurs as a contiguous substring of s
(the Python expression sub in s). -/
def containsSub (s sub : Str) : Bool :=
  (List.range (s.length + 1)).any (fun i => sub.isPrefixOf (s.drop i))

/-- CONTEXT_TOKEN_LIMIT from the source. -/
def CONTEXT_TOKEN_LIMIT : Nat := 700

/-- Token counter for RegexpTokenizer(r'\w+|[^\w\s]'): a maximal run of
word characters is one token, and each non-word non-space character is
one token.  The Bool flag records whether the previous character was a
word character (i.e. we are inside a \w+ run). -/
def countTokensAux : Str → Bool → Nat
  | [], _ => 0
  | c :: rest, inw =>
    if wordChar c then (if inw then 0 else 1) + countTokensAux rest true
    else if spaceChar c then countTokensAux rest false
    else 1 + countTokensAux rest false

/-- Number of tokens of a string under the source's tokenizer. -/
def countTokens (s : Str) : Nat := countTokensAux s false

/-- Total token count of a list of strings. -/
def sumTokens (l : List Str) : Nat := (l.map countTokens).sum

/-- A snippet record: only its text field is used by the tool. -/
structure Snippet where
  text : Str
deriving DecidableEq

/-- One element of the exact_answer field: either a plain answer string
or a list of alternative phrasings for the same answer slot. -/
inductive ExactAnswer where
  | single : Str → ExactAnswer
  | alternatives : List Str → ExactAnswer
deriving DecidableEq

/-- An input question record. -/
structure Question where
  id : Str
  qtype : Str
  body : Str
  exact_answer : List ExactAnswer
  snippets : List Snippet
deriving DecidableEq

/-- An answer-span record of the output. -/
structure AnswerSpan where
  answer_start : Nat
  text : Str
deriving DecidableEq

/-- The single qas entry of an output paragraph. -/
structure QA where
  id : Str
  question : Str
  answers : List AnswerSpan
  original_answers : List ExactAnswer
  question_type : Str
deriving DecidableEq

/-- An output paragraph record. -/
structure Paragraph where
  context : Str
  qas : List QA
deriving DecidableEq

/-- Default QA used only to express indexing qas[0]. -/
def dQA : QA :=
  { id := [], question := [], answers := [], original_answers := [], question_type := [] }

/-- Uncaught Python exceptions that the pipeline can raise. -/
inductive PErr where
  | indexError
  | assertError
  | valueError
deriving DecidableEq

/-- Outcome of get_answers: an uncaught IndexError (answers[0] on an
empty alternatives list), an assertion failure (assert len(answers)),
a per-question skip (the function returns None after a warning), or a
non-empty list of answer spans. -/
inductive AnswersResult where
  | indexError
  | assertError
  | skipped
  | found : List AnswerSpan → AnswersResult
deriving DecidableEq

/-- The loop body of get_context: deduplicate snippets via a seen set,
keep a running token count, and stop (marking truncation) as soon as the
count exceeds CONTEXT_TOKEN_LIMIT; the snippet that would exceed the
limit is excluded entirely. -/
def context_loop : List Str → List Str → Nat → List Str × Bool
  | [], _, _ => ([], false)
  | s :: rest, seen, num_tokens =>
    if s ∈ seen then context_loop rest seen num_tokens
    else
      let nt := num_tokens + countTokens s
      if CONTEXT_TOKEN_LIMIT < nt then ([], true)
      else
        let r := context_loop rest (s :: seen) nt
        (s :: r.1, r.2)

/-- get_context from the source: returns the space-joined deduplicated
snippet texts (up to the token limit) and the truncation flag. -/
def get_context (question : Question) : Str × Bool :=
  let snippets := question.snippets.map Snippet.text
  let r := context_loop snippets [] 0
  (List.intercalate [32] r.1, r.2)

/-- clean_answer from the source: strip and lowercase, drop a leading
"the " prefix, and drop the final character when it is non-word
(the regex search for [^\w]$ succeeds exactly when the final character
is non-word, since a trailing newline is itself non-word). -/
def clean_answer (answer : Str) : Str :=
  let a1 := lowerStr (trimStr answer)
  let a2 := if (str ("the ")).isPrefixOf a1 then a1.drop 4 else a1
  match a2.getLast? with
  | some c => if !wordChar c then a2.dropLast else a2
  | none => a2

/-- Modelled from the spec (Step 2 of Answer Resolution): lowercase and
trim whitespace; strip a leading "the " prefix when present; strip the
final character when it is non-word.  Stated with the lowering applied
first; the source strips first and lowercases second. -/
def cleanAnswerSpec (answer : Str) : Str :=
  let a1 := trimStr (lowerStr answer)
  let a2 := if (str ("the ")).isPrefixOf a1 then a1.drop 4 else a1
  match a2.getLast? with
  | some c => if !wordChar c then a2.dropLast else a2
  | none => a2

/-- True when the character at index i of s exists and is non-word. -/
def nonWordAt (s : Str) (i : Nat) : Bool :=
  match s.get? i with
  | some c => !wordChar c
  | none => false

/-- re.finditer over the pattern \W<sub>\W, reporting m.start() + 1 for
each (non-overlapping, leftmost-first) match.  The skip argument counts
characters still covered by the previous match, which the engine does
not retry. -/
def scan_bothAux (sub : Str) : Str → Nat → Nat → List Nat
  | [], _, _ => []
  | _ :: rest, off, k + 1 => scan_bothAux sub rest (off + 1) k
  | c :: rest, off, 0 =>
    if !wordChar c && sub.isPrefixOf rest && nonWordAt rest sub.length then
      (off + 1) :: scan_bothAux sub rest (off + 1) (sub.length + 1)
    else
      scan_bothAux sub rest (off + 1) 0

/-- All m.start() + 1 values for re.finditer over \W<sub>\W. -/
def scan_both (sub s : Str) : List Nat := scan_bothAux sub s 0 0

/-- m.start() + 1 values for re.finditer over ^<sub>\W: the anchor only
matches at offset 0, so the result is [1] or []. -/
def match_start (s sub : Str) : List Nat :=
  if sub.isPrefixOf s && nonWordAt s sub.length then [1] else []

/-- m.start() + 1 values for re.finditer over \W<sub>$: the first offset
whose character is non-word and is followed by sub reaching the end of
the string ($ also matches just before a final newline).  At most one
match exists for a non-empty sub. -/
def scan_end (sub : Str) : Str → Nat → List Nat
  | [], _ => []
  | c :: rest, off =>
    if !wordChar c && sub.isPrefixOf rest &&
        (rest.drop sub.length == [] || rest.drop sub.length == [10]) then
      [off + 1]
    else
      scan_end sub rest (off + 1)

/-- find_all_substring_positions from the source: empty substrings yield
no positions; otherwise the three regex searches run in order and their
m.start() + 1 values are concatenated. -/
def find_all_substring_positions (string substring : Str) : List Nat :=
  if substring.length = 0 then []
  else scan_both substring string ++ match_start string substring ++ scan_end substring string 0

/-- find_best_answer from the source: the first alternative that is a
(lowercased) substring of the context and non-empty; otherwise the first
alternative, whose absence signals the IndexError of answers[0]. -/
def find_best_answer (context : Str) (answers : List Str) : Option Str :=
  match answers.find? (fun a => containsSub context (lowerStr a) && !(a.length == 0)) with
  | some a => some a
  | none => answers.head?

/-- The list comprehension of get_answers: plain strings pass through,
alternative lists go through find_best_answer; the first empty
alternatives slot makes the whole comprehension fail. -/
def selectAnswers (context : Str) : List ExactAnswer → Option (List Str)
  | [] => some []
  | ExactAnswer.single s :: rest =>
    match selectAnswers context rest with
    | some l => some (s :: l)
    | none => none
  | ExactAnswer.alternatives alts :: rest =>
    match find_best_answer context alts with
    | some a =>
      match selectAnswers context rest with
      | some l => some (a :: l)
      | none => none
    | none => none

/-- get_answers from the source: lowercase the context, select one
answer string per exact_answer slot, assert the list is non-empty, then
collect one answer-span record per position found for each cleaned
answer; an empty collection makes the question skip. -/
def get_answers (question : Question) (context : Str) : AnswersResult :=
  let ctx := lowerStr context
  match selectAnswers ctx question.exact_answer with
  | none => AnswersResult.indexError
  | some answers =>
    if answers.length = 0 then AnswersResult.assertError
    else
      let answer_objects := answers.flatMap (fun a =>
        let a2 := clean_answer a
        (find_all_substring_positions ctx a2).map
          (fun p => { answer_start := p, text := a2 : AnswerSpan }))
      if answer_objects.length = 0 then AnswersResult.skipped
      else AnswersResult.found answer_objects

/-- The warning message logged when a question with no snippets is
dropped by filter_questions. -/
def warnNoSnippets (id : Str) : Str :=
  str ("Skipping question ") ++ id ++ str (". No snippets.")

/-- filter_questions from the source, also returning the warnings it
logs: unsupported question types are dropped silently (a bare continue),
supported-type questions with no snippets are dropped with a warning,
everything else is kept. -/
def filter_questions : List Question → List Question × List Str
  | [] => ([], [])
  | q :: rest =>
    let r := filter_questions rest
    if ¬(q.qtype = str ("factoid") ∨ q.qtype = str ("list")) then r
    else if q.snippets.length = 0 then (r.1, warnNoSnippets q.id :: r.2)
    else (q :: r.1, r.2)

/-- build_paragraph from the source: build the context, resolve the
answers, and either propagate an uncaught exception, return none (the
question is skipped), or return the paragraph record together with the
truncation flag. -/
def build_paragraph (question : Question) : Except PErr (Option (Paragraph × Bool)) :=
  let r := get_context question
  match get_answers question r.1 with
  | AnswersResult.indexError => Except.error PErr.indexError
  | AnswersResult.assertError => Except.error PErr.assertError
  | AnswersResult.skipped => Except.ok none
  | AnswersResult.found answers =>
    Except.ok (some ({
      context := lowerStr r.1,
      qas := [{
        id := question.id,
        question := lowerStr question.body,
        answers := answers,
        original_answers := question.exact_answer,
        question_type := question.qtype }] }, r.2))

/-- The list comprehension of build_paragraphs, evaluated left to right;
the first uncaught exception propagates. -/
def build_paragraphs_loop : List Question → Except PErr (List (Option (Paragraph × Bool)))
  | [] => Except.ok []
  | q :: rest =>
    match build_paragraph q with
    | Except.error e => Except.error e
    | Except.ok r =>
      match build_paragraphs_loop rest with
      | Except.error e => Except.error e
      | Except.ok rs => Except.ok (r :: rs)

/-- build_paragraphs from the source: filter the questions, build one
optional paragraph per kept question, drop the Nones, then unpack with
zip(*paragraphs) — which raises ValueError when the list is empty — and
count the truncated contexts. -/
def build_paragraphs (questions : List Question) : Except PErr (List Paragraph × Nat) :=
  match build_paragraphs_loop (filter_questions questions).1 with
  | Except.error e => Except.error e
  | Except.ok results =>
    match results.filterMap id with
    | [] => Except.error PErr.valueError
    | p :: ps =>
      Except.ok (((p :: ps).map Prod.fst), (p :: ps).countP (fun r => r.2))

/-- train_size as computed by the source, int(TRAIN_FRACTION * N) with
TRAIN_FRACTION = 0.8, written in exact arithmetic (the float expression
int(0.8 * N) equals floor(4N/5) throughout the representable range of
dataset sizes). -/
def train_size (n : Nat) : Nat := 4 * n / 5

/-- The loop of split_paragraphs: walk the permutation and route each
indexed paragraph to the train or dev list according to membership in
the drawn train index set. -/
def split_loop [Inhabited α] (ps : List α) (train_indices : List Nat) :
    List Nat → List α × List α
  | [] => ([], [])
  | i :: rest =>
    let r := split_loop ps train_indices rest
    if i ∈ train_indices then (ps.getD i default :: r.1, r.2)
    else (r.1, ps.getD i default :: r.2)

/-- split_paragraphs from the source, with the two np.random draws
(train_indices = np.random.choice(N, train_size, replace=False) and the
permutation np.random.permutation(N)) passed in explicitly. -/
def split_paragraphs [Inhabited α] (ps : List α) (train_indices perm : List Nat) :
    List α × List α :=
  split_loop ps train_indices perm

/-- The seed that the source installs with np.random.seed. -/
def SEED : Nat := 1234

/-- The seeded generator, modelled as a deterministic function from the
seed and the dataset size to the two draws consumed by the Splitter. -/
def RNG := Nat → Nat → List Nat × List Nat

/-- One run of the Splitter: draw from the seeded generator and split. -/
def run_split [Inhabited α] (rng : RNG) (ps : List α) : List α × List α :=
  let draws := rng SEED ps.length
  split_paragraphs ps draws.1 draws.2

/-- Modelled from the spec (Step 3 of Answer Resolution): ans occurs in
ctx at position p as a whole-word match, i.e. ans is non-empty, occurs
at p, and is bounded on each side by a non-word character or by the
string boundary. -/
def isWholeWordMatchSpec (ctx ans : Str) (p : Nat) : Bool :=
  !(ans.length == 0) &&
  ans.isPrefixOf (ctx.drop p) &&
  (p == 0 || nonWordAt ctx (p - 1)) &&
  (p + ans.length == ctx.length || nonWordAt ctx (p + ans.length))

/-- The single factoid question of the end-to-end scenario. -/
def qC1 : Question :=
  { id := str ("q1"),
    qtype := str ("factoid"),
    body := str ("What protein is important?"),
    exact_answer := [ExactAnswer.single (str ("Protein X"))],
    snippets := [{ text := str ("Protein X is important.") }] }

/-- The paragraph that the pipeline emits for qC1. -/
def pC1 : Paragraph :=
  { context := str ("protein x is important."),
    qas := [{
      id := str ("q1"),
      question := str ("what protein is important?"),
      answers := [{ answer_start := 1, text := str ("protein x") }],
      original_answers := [ExactAnswer.single (str ("Protein X"))],
      question_type := str ("factoid") }] }

/-- Claim C1: the end-to-end scenario (one factoid question with
exact_answer ["Protein X"] and one snippet "Protein X is important.")
emits one paragraph with context "protein x is important." and one
answer span with text "protein x" — but the code records answer_start 1,
not the absolute offset 0 of the answer in the context: the ^-anchored
search's match starts at offset 0 and the code adds 1 uniformly. -/
theorem build_paragraphs_single_factoid_run :
    build_paragraphs [qC1] = Except.ok ([pC1], 0) ∧
    pC1.qas.map QA.answers = [[{ answer_start := 1, text := str ("protein x") }]] := by
  exact ⟨rfl, rfl⟩

/-- Claim C2: span location misses a valid whole-word occurrence when
the context equals the answer exactly: "cell" occurs in context "cell"
at position 0 as a whole-word match (per the spec's boundary rule), yet
find_all_substring_positions returns no position at all, because each of
the three regex patterns demands an adjacent non-word character on at
least one side. -/
theorem find_all_substring_positions_whole_context_miss :
    isWholeWordMatchSpec (str ("cell")) (str ("cell")) 0 = true ∧
    find_all_substring_positions (str ("cell")) (str ("cell")) = [] := by
  exact ⟨rfl, rfl⟩

/-- A factoid question whose exact answer does not occur in its only
snippet; answer resolution skips it. -/
def qNoMatch : Question :=
  { id := str ("q3"),
    qtype := str ("factoid"),
    body := str ("What is here?"),
    exact_answer := [ExactAnswer.single (str ("absent"))],
    snippets := [{ text := str ("Nothing here.") }] }

/-- Claim C3: when every question is dropped by a per-question skip, the
run does not complete with empty outputs: with a single question whose
answer cannot be located, the question is skipped, the surviving list is
empty, and the unpacking zip(*paragraphs) raises an uncaught ValueError,
aborting the run. -/
theorem build_paragraphs_all_dropped_value_error :
    build_paragraphs [qNoMatch] = Except.error PErr.valueError := by
  exact rfl

/-- A question of unsupported type "summary". -/
def qSummary : Question :=
  { id := str ("q_sum"),
    qtype := str ("summary"),
    body := str ("Summarize?"),
    exact_answer := [],
    snippets := [{ text := str ("Some text.") }] }

/-- Claim C4, counterexample: a question dropped because its type is
outside {factoid, list} is dropped silently — filter_questions removes
it and logs no warning at all, so no warning contains its id. -/
theorem filter_questions_unsupported_type_silent :
    filter_questions [qSummary] = ([], []) := by
  exact rfl

/-- Claim C4, as amended: only drops caused by an empty snippets list
(on questions of supported type) are logged, with a warning that names
the question id and the reason; drops caused by an unsupported type
produce no warning.  The warning list is exactly one "Skipping question
<id>. No snippets." message per supported-type question with no
snippets, in input order. -/
theorem filter_questions_warning_characterization (qs : List Question) :
    (filter_questions qs).2 =
      (qs.filter (fun q =>
        decide ((q.qtype = str ("factoid") ∨ q.qtype = str ("list")) ∧
          q.snippets.length = 0))).map (fun q => warnNoSnippets q.id) := by
  induction qs with
  | nil => rfl
  | cons q rest ih =>
    simp only [filter_questions, List.filter_cons]
    by_cases h1 : q.qtype = str ("factoid") ∨ q.qtype = str ("list")
    · by_cases h2 : q.snippets.length = 0
      · simp [h1, h2, ih]
      · simp [h1, h2, ih]
    · simp [h1, ih]

/-- selectAnswers fails (models the IndexError of answers[0]) whenever
some slot of the exact_answer list is an empty alternatives list. -/
theorem selectAnswers_none_of_empty_alternatives (context : Str)
    (l : List ExactAnswer) (h : ExactAnswer.alternatives [] ∈ l) :
    selectAnswers context l = none := by
  induction l with
  | nil => cases h
  | cons a rest ih =>
    cases a with
    | single s =>
      have hr : ExactAnswer.alternatives [] ∈ rest := by
        cases h with
        | tail _ h' => exact h'
      simp [selectAnswers, ih hr]
    | alternatives alts =>
      cases h with
      | head =>
        simp [selectAnswers, find_best_answer]
      | tail _ h' =>
        cases hfb : find_best_answer context alts with
        | none => simp [selectAnswers, hfb]
        | some a => simp [selectAnswers, hfb, ih h']

/-- Claim C10: if some slot of a question's exact_answer sequence is an
empty list of alternative phrasings, get_answers raises the uncaught
IndexError of the answers[0] fallback in find_best_answer — it neither
performs the recoverable per-question skip nor reaches the
assert len(answers) check. -/
theorem get_answers_empty_alternatives_index_error (q : Question) (context : Str)
    (h : ExactAnswer.alternatives [] ∈ q.exact_answer) :
    get_answers q context = AnswersResult.indexError := by
  have hs := selectAnswers_none_of_empty_alternatives (lowerStr context) _ h
  simp [get_answers, hs]

/-- The list-type question of the C10 witness, with one empty
alternatives slot. -/
def qC10 : Question :=
  { id := str ("q10"),
    qtype := str ("list"),
    body := str ("Which ones?"),
    exact_answer := [ExactAnswer.alternatives []],
    snippets := [{ text := str ("Some snippet.") }] }

/-- Witness for claim C10 at a concrete filtered question. -/
theorem get_answers_empty_alternatives_index_error_witness :
    get_answers qC10 (str ("Some snippet.")) = AnswersResult.indexError :=
  get_answers_empty_alternatives_index_error qC10 (str ("Some snippet."))
    (List.Mem.head _)

/-- get_answers only returns found with a non-empty span list: the empty
collection is turned into a skip. -/
theorem get_answers_found_ne_nil (q : Question) (c : Str) (l : List AnswerSpan)
    (h : get_answers q c = AnswersResult.found l) : l ≠ [] := by
  simp only [get_answers] at h
  split at h
  · cases h
  · split at h
    · cases h
    · split at h
      · cases h
      · rename_i hlen
        injection h with h2
        subst h2
        intro hnil
        rw [hnil] at hlen
        simp at hlen

/-- Every paragraph emitted by build_paragraph has exactly one qas entry
whose answers list is non-empty. -/
theorem build_paragraph_shape (q : Question) (p : Paragraph) (t : Bool)
    (h : build_paragraph q = Except.ok (some (p, t))) :
    p.qas.length = 1 ∧ 1 ≤ ((p.qas.getD 0 dQA).answers).length := by
  simp only [build_paragraph] at h
  split at h
  · cases h
  · cases h
  · cases h
  · rename_i answers hfound
    injection h with h2
    injection h2 with h3
    injection h3 with hpq htq
    rw [← hpq]
    refine ⟨rfl, ?_⟩
    have hne := get_answers_found_ne_nil q (get_context q).1 answers hfound
    exact List.length_pos.mpr hne

/-- Shape invariant for the whole comprehension of build_paragraphs. -/
theorem build_paragraphs_loop_shape (qs : List Question)
    (results : List (Option (Paragraph × Bool)))
    (h : build_paragraphs_loop qs = Except.ok results) :
    ∀ r ∈ results, ∀ p t, r = some (p, t) →
      p.qas.length = 1 ∧ 1 ≤ ((p.qas.getD 0 dQA).answers).length := by
  induction qs generalizing results with
  | nil =>
    simp only [build_paragraphs_loop] at h
    injection h with h2
    subst h2
    intro r hr
    cases hr
  | cons q rest ih =>
    simp only [build_paragraphs_loop] at h
    split at h
    · cases h
    · rename_i r0 hr0
      split at h
      · cases h
      · rename_i rs hrs
        injection h with h2
        subst h2
        intro r hr p t hrpt
        cases hr with
        | head =>
          subst hrpt
          exact build_paragraph_shape q p t hr0
        | tail _ hmem =>
          exact ih rs hrs r hmem p t hrpt

/-- Claim C8: for every paragraph emitted by a successful run of
build_paragraphs (hence appearing in either output file), the single qas
entry has a non-empty answers list; questions whose answer resolution
yields zero spans never produce a paragraph. -/
theorem build_paragraphs_answers_nonempty (questions : List Question)
    (ps : List Paragraph) (n : Nat)
    (h : build_paragraphs questions = Except.ok (ps, n)) :
    ∀ p ∈ ps, p.qas.length = 1 ∧ 1 ≤ ((p.qas.getD 0 dQA).answers).length := by
  simp only [build_paragraphs] at h
  split at h
  · cases h
  · rename_i results hloop
    split at h
    · cases h
    · rename_i x xs hfm
      injection h with h2
      have hps : (x :: xs).map Prod.fst = ps := congrArg Prod.fst h2
      intro p hp
      rw [← hps] at hp
      obtain ⟨pair, hpairmem, hpairp⟩ := List.mem_map.mp hp
      rw [← hfm] at hpairmem
      obtain ⟨o, homem, hosome⟩ := List.mem_filterMap.mp hpairmem
      have := build_paragraphs_loop_shape _ results hloop o homem pair.1 pair.2
        (by exact hosome)
      rwa [hpairp] at this

/-- The question of the C8 witness. -/
def qC8 : Question :=
  { id := str ("q8"),
    qtype := str ("factoid"),
    body := str ("Which enzyme works?"),
    exact_answer := [ExactAnswer.single (str ("Enzyme Y"))],
    snippets := [{ text := str ("Enzyme Y works.") }] }

/-- The paragraph emitted for qC8. -/
def pC8 : Paragraph :=
  { context := str ("enzyme y works."),
    qas := [{
      id := str ("q8"),
      question := str ("which enzyme works?"),
      answers := [{ answer_start := 1, text := str ("enzyme y") }],
      original_answers := [ExactAnswer.single (str ("Enzyme Y"))],
      question_type := str ("factoid") }] }

/-- Witness for claim C8 at a concrete successful run. -/
theorem build_paragraphs_answers_nonempty_witness :
    pC8.qas.length = 1 ∧ 1 ≤ ((pC8.qas.getD 0 dQA).answers).length :=
  build_paragraphs_answers_nonempty [qC8] [pC8] 0 rfl pC8 (List.Mem.head _)

/-- Lowercasing never turns a character into or out of whitespace. -/
theorem spaceChar_lowerChar (c : Nat) : spaceChar (lowerChar c) = spaceChar c := by
  unfold lowerChar
  split
  · rename_i h
    have hL : spaceChar (c + 32) = false := by
      simp [spaceChar]
      omega
    have hR : spaceChar c = false := by
      simp [spaceChar]
      omega
    rw [hL, hR]
  · rfl

/-- Whitespace stripping commutes with per-character lowercasing. -/
theorem dropWhile_spaceChar_map_lowerChar (l : Str) :
    (l.map lowerChar).dropWhile spaceChar = (l.dropWhile spaceChar).map lowerChar := by
  induction l with
  | nil => rfl
  | cons c rest ih =>
    simp only [List.map_cons, List.dropWhile_cons, spaceChar_lowerChar]
    by_cases h : spaceChar c = true
    · simp [h, ih]
    · simp [h]

/-- Python strip commutes with Python lower. -/
theorem trimStr_lowerStr (s : Str) : trimStr (lowerStr s) = lowerStr (trimStr s) := by
  unfold trimStr lowerStr
  rw [dropWhile_spaceChar_map_lowerChar, ← List.map_reverse,
    dropWhile_spaceChar_map_lowerChar, ← List.map_reverse]

/-- Claim C9: clean_answer lowercases and trims whitespace, strips a
leading "the " prefix when present, and strips the final character when
it is non-word — it agrees with the spec-side restatement (which
lowercases before trimming) on every input, and cleans "The Protein."
to "protein". -/
theorem clean_answer_matches_spec :
    (∀ a, clean_answer a = cleanAnswerSpec a) ∧
    clean_answer (str ("The Protein.")) = str ("protein") := by
  constructor
  · intro a
    unfold clean_answer cleanAnswerSpec
    rw [trimStr_lowerStr]
  · rfl

/-- sumTokens on cons. -/
theorem sumTokens_cons (s : Str) (l : List Str) :
    sumTokens (s :: l) = countTokens s + sumTokens l := by
  simp [sumTokens]

/-- If the snippets are pairwise distinct, none was seen before, and the
total token count fits under the limit, the context loop keeps every
snippet and does not truncate. -/
theorem context_loop_no_truncate (rest : List Str) :
    ∀ (seen : List Str) (nt : Nat), rest.Nodup → (∀ s ∈ rest, s ∉ seen) →
    nt + sumTokens rest ≤ CONTEXT_TOKEN_LIMIT →
    context_loop rest seen nt = (rest, false) := by
  induction rest with
  | nil => intro seen nt _ _ _; rfl
  | cons s rest' ih =>
    intro seen nt hnd hseen hle
    have hs : s ∉ seen := hseen s (List.Mem.head _)
    rw [sumTokens_cons] at hle
    have hnd' : rest'.Nodup := (List.nodup_cons.mp hnd).2
    have hsm : s ∉ rest' := (List.nodup_cons.mp hnd).1
    simp only [context_loop, if_neg hs]
    have hnotgt : ¬ CONTEXT_TOKEN_LIMIT < nt + countTokens s := by omega
    rw [if_neg hnotgt]
    have hseen' : ∀ t ∈ rest', t ∉ s :: seen := by
      intro t ht
      simp only [List.mem_cons, not_or]
      constructor
      · intro hts; subst hts; exact hsm ht
      · exact hseen t (List.mem_cons_of_mem s ht)
    rw [ih (s :: seen) (nt + countTokens s) hnd' hseen' (by omega)]

/-- If the running count fits through the prefix pre but would exceed
the limit on snippet s, the loop stops at s with the truncation flag
set, keeping exactly pre. -/
theorem context_loop_truncate_at (pre : List Str) :
    ∀ (s : Str) (post seen : List Str) (nt : Nat),
    (pre ++ [s]).Nodup → (∀ t ∈ pre ++ [s], t ∉ seen) →
    nt + sumTokens pre ≤ CONTEXT_TOKEN_LIMIT →
    CONTEXT_TOKEN_LIMIT < nt + sumTokens pre + countTokens s →
    context_loop (pre ++ s :: post) seen nt = (pre, true) := by
  induction pre with
  | nil =>
    intro s post seen nt _ hseen _ hgt
    have hs : s ∉ seen := hseen s (List.Mem.head _)
    simp only [List.nil_append, context_loop, if_neg hs]
    have : CONTEXT_TOKEN_LIMIT < nt + countTokens s := by
      simpa [sumTokens] using hgt
    rw [if_pos this]
  | cons p pre' ih =>
    intro s post seen nt hnd hseen hle hgt
    have hp : p ∉ seen := hseen p (List.Mem.head _)
    rw [sumTokens_cons] at hle hgt
    have hnd' : (pre' ++ [s]).Nodup := (List.nodup_cons.mp (by simpa using hnd)).2
    have hpm : p ∉ pre' ++ [s] := (List.nodup_cons.mp (by simpa using hnd)).1
    simp only [List.cons_append, context_loop, if_neg hp]
    have hnotgt : ¬ CONTEXT_TOKEN_LIMIT < nt + countTokens p := by omega
    rw [if_neg hnotgt]
    have hseen' : ∀ t ∈ pre' ++ [s], t ∉ p :: seen := by
      intro t ht
      simp only [List.mem_cons, not_or]
      constructor
      · intro htp; subst htp; exact hpm ht
      · exact hseen t (List.mem_cons_of_mem p ht)
    simp only [List.append_eq]
    rw [ih s post (p :: seen) (nt + countTokens p) hnd' hseen' (by omega) (by omega)]

/-- Claim C5: on pairwise-distinct snippets, (a) if the total token
count is exactly the 700-token limit then every snippet is kept and the
truncated flag is false, and (b) if the cumulative count first exceeds
the limit at snippet s then the flag is true, s is excluded, and the
context is exactly the preceding snippets joined by single spaces in
input order. -/
theorem get_context_truncation_boundary (q : Question) (snips : List Str)
    (hq : q.snippets.map Snippet.text = snips) (hnd : snips.Nodup) :
    (sumTokens snips = CONTEXT_TOKEN_LIMIT →
      get_context q = (List.intercalate [32] snips, false)) ∧
    (∀ pre s post, snips = pre ++ s :: post →
      sumTokens pre ≤ CONTEXT_TOKEN_LIMIT →
      CONTEXT_TOKEN_LIMIT < sumTokens pre + countTokens s →
      get_context q = (List.intercalate [32] pre, true)) := by
  constructor
  · intro hsum
    simp only [get_context, hq]
    rw [context_loop_no_truncate snips [] 0 hnd (by simp) (by omega)]
  · intro pre s post hsplit hle hgt
    have hsub : (pre ++ [s]).Sublist (pre ++ s :: post) := by
      apply List.Sublist.append_left
      exact (List.nil_sublist post).cons₂ s
    have hnd' : (pre ++ [s]).Nodup := by
      rw [hsplit] at hnd
      exact List.Nodup.sublist hsub hnd
    simp only [get_context, hq, hsplit]
    rw [context_loop_truncate_at pre s post [] 0 hnd' (by simp) (by omega) (by omega)]

/-- A run of n exclamation marks tokenizes to n tokens. -/
theorem countTokensAux_replicate_bang (n : Nat) (b : Bool) :
    countTokensAux (List.replicate n 33) b = n := by
  induction n generalizing b with
  | zero => rfl
  | succ k ih =>
    have hw : wordChar 33 = false := rfl
    have hs : spaceChar 33 = false := rfl
    simp [List.replicate_succ, countTokensAux, hw, hs, ih]
    omega

/-- A snippet text of exactly 700 one-character tokens. -/
def bang700 : Str := List.replicate 700 33

/-- Witness question whose snippets total exactly the token limit. -/
def qW1 : Question :=
  { id := str ("w1"),
    qtype := str ("factoid"),
    body := str ("w?"),
    exact_answer := [],
    snippets := [{ text := bang700 }] }

/-- Witness question whose second snippet first exceeds the limit. -/
def qW2 : Question :=
  { id := str ("w2"),
    qtype := str ("factoid"),
    body := str ("w?"),
    exact_answer := [],
    snippets := [{ text := bang700 }, { text := [33] }] }

/-- The two witness snippet lists are duplicate-free. -/
theorem bang700_ne_single : bang700 ≠ [33] := by
  intro h
  have h2 := congrArg List.length h
  rw [bang700, List.length_replicate, List.length_singleton] at h2
  omega

/-- Witness for claim C5: a snippet of exactly 700 tokens is kept whole
without truncation, and adding a one-token snippet afterwards truncates,
dropping the second snippet. -/
theorem get_context_truncation_boundary_witness :
    get_context qW1 = (List.intercalate [32] [bang700], false) ∧
    get_context qW2 = (List.intercalate [32] [bang700], true) := by
  have hsum : sumTokens [bang700] = CONTEXT_TOKEN_LIMIT := by
    rw [sumTokens_cons]
    show countTokens bang700 + sumTokens [] = CONTEXT_TOKEN_LIMIT
    rw [show countTokens bang700 = 700 from countTokensAux_replicate_bang 700 false]
    rfl
  constructor
  · exact (get_context_truncation_boundary qW1 [bang700] rfl
      (List.nodup_singleton _)).1 hsum
  · refine (get_context_truncation_boundary qW2 [bang700, [33]] rfl ?_).2
      [bang700] [33] [] rfl (by omega) ?_
    · refine List.nodup_cons.mpr ⟨?_, List.nodup_singleton _⟩
      simp only [List.mem_singleton]
      exact bang700_ne_single
    · rw [hsum]
      have h1 : countTokens [33] = 1 := rfl
      omega

/-- The concatenation of the two split halves is a permutation of the
paragraphs indexed by the permutation list. -/
theorem split_loop_append_perm [Inhabited α] (ps : List α) (ti : List Nat) (l : List Nat) :
    ((split_loop ps ti l).1 ++ (split_loop ps ti l).2).Perm
      (l.map (fun i => ps.getD i default)) := by
  induction l with
  | nil => simp [split_loop]
  | cons i rest ih =>
    simp only [split_loop, List.map_cons]
    by_cases h : i ∈ ti
    · simp only [if_pos h, List.cons_append]
      exact ih.cons _
    · simp only [if_neg h]
      exact List.perm_middle.trans (ih.cons _)

/-- The train half selects exactly the permutation entries that lie in
the drawn train index set. -/
theorem split_loop_train_length [Inhabited α] (ps : List α) (ti : List Nat) (l : List Nat) :
    (split_loop ps ti l).1.length = (l.filter (fun i => decide (i ∈ ti))).length := by
  induction l with
  | nil => rfl
  | cons i rest ih =>
    simp only [split_loop, List.filter_cons]
    by_cases h : i ∈ ti
    · simp [h, ih]
    · simp [h, ih]

/-- Indexing a list by the full range reproduces the list. -/
theorem map_getD_range [Inhabited α] (l : List α) :
    (List.range l.length).map (fun i => l.getD i default) = l := by
  induction l with
  | nil => rfl
  | cons a rest ih =>
    rw [List.length_cons, List.range_succ_eq_map, List.map_cons, List.map_map]
    have hfun : ((fun i => (a :: rest).getD i default) ∘ Nat.succ) =
        fun i => rest.getD i default := by
      funext i
      simp [List.getD_cons_succ]
    rw [hfun, ih]
    simp [List.getD_cons_zero]

/-- Filtering the range by membership in a duplicate-free, in-range
index set keeps exactly that many indices. -/
theorem filter_range_mem_length (ti : List Nat) (n : Nat) (hnd : ti.Nodup)
    (hlt : ∀ i ∈ ti, i < n) :
    ((List.range n).filter (fun i => decide (i ∈ ti))).length = ti.length := by
  have hF : ((List.range n).filter (fun i => decide (i ∈ ti))).Perm ti := by
    refine (List.perm_ext_iff_of_nodup ((List.nodup_range n).filter _) hnd).mpr ?_
    intro a
    simp only [List.mem_filter, List.mem_range, decide_eq_true_eq]
    exact ⟨fun h => h.2, fun h => ⟨hlt a h, h⟩⟩
  exact hF.length_eq

/-- Claim C6: for train indices drawn without replacement (distinct,
in range, of size train_size N) and any permutation of the N indices,
split_paragraphs assigns every paragraph to exactly one of train/dev —
the two halves' lengths sum to N and their concatenation is a
permutation of the input — and the train half has exactly
train_size N = floor(0.8 * N) elements. -/
theorem split_paragraphs_partition [Inhabited α] (ps : List α)
    (train_indices perm : List Nat)
    (hperm : perm.Perm (List.range ps.length))
    (hnd : train_indices.Nodup)
    (hlt : ∀ i ∈ train_indices, i < ps.length)
    (hlen : train_indices.length = train_size ps.length) :
    (split_paragraphs ps train_indices perm).1.length +
      (split_paragraphs ps train_indices perm).2.length = ps.length ∧
    (split_paragraphs ps train_indices perm).1.length = train_size ps.length ∧
    ((split_paragraphs ps train_indices perm).1 ++
      (split_paragraphs ps train_indices perm).2).Perm ps := by
  have hperm2 : ((split_paragraphs ps train_indices perm).1 ++
      (split_paragraphs ps train_indices perm).2).Perm ps := by
    refine (split_loop_append_perm ps train_indices perm).trans ?_
    refine (hperm.map (fun i => ps.getD i default)).trans ?_
    rw [map_getD_range]
  refine ⟨?_, ?_, hperm2⟩
  · have hlen2 := hperm2.length_eq
    simpa [List.length_append] using hlen2
  · rw [split_paragraphs, split_loop_train_length]
    have hpf : (perm.filter (fun i => decide (i ∈ train_indices))).length =
        ((List.range ps.length).filter (fun i => decide (i ∈ train_indices))).length :=
      (hperm.filter (fun i => decide (i ∈ train_indices))).length_eq
    rw [hpf, filter_range_mem_length train_indices ps.length hnd hlt, hlen]

/-- Witness for claim C6 on a concrete five-element input with a
four-element train draw and a nontrivial permutation. -/
theorem split_paragraphs_partition_witness :
    (split_paragraphs [10, 20, 30, 40, 50] [3, 0, 1, 4] [2, 4, 1, 0, 3]).1.length +
      (split_paragraphs [10, 20, 30, 40, 50] [3, 0, 1, 4] [2, 4, 1, 0, 3]).2.length = 5 ∧
    (split_paragraphs [10, 20, 30, 40, 50] [3, 0, 1, 4] [2, 4, 1, 0, 3]).1.length = 4 ∧
    ((split_paragraphs [10, 20, 30, 40, 50] [3, 0, 1, 4] [2, 4, 1, 0, 3]).1 ++
      (split_paragraphs [10, 20, 30, 40, 50] [3, 0, 1, 4] [2, 4, 1, 0, 3]).2).Perm
      [10, 20, 30, 40, 50] :=
  split_paragraphs_partition [10, 20, 30, 40, 50] [3, 0, 1, 4] [2, 4, 1, 0, 3]
    (by decide) (by decide) (by decide) (by decide)

/-- Claim C7: the Splitter is deterministic — with the generator
modelled as a function of the installed seed and the input size, two
runs on the same input produce identical train/dev assignments. -/
theorem run_split_deterministic [Inhabited α] (rng : RNG) (ps1 ps2 : List α)
    (h : ps1 = ps2) : run_split rng ps1 = run_split rng ps2 := by
  rw [h]

/-- Witness for claim C7 with a concrete generator and input. -/
theorem run_split_deterministic_witness :
    run_split (fun _ n => (List.range (train_size n), List.range n)) [10, 20, 30] =
      run_split (fun _ n => (List.range (train_size n), List.range n)) [10, 20, 30] :=
  run_split_deterministic (fun _ n => (List.range (train_size n), List.range n))
    [10, 20, 30] [10, 20, 30] rfl
